import Mathlib

/-!
Shallow embedding of the gameplay-simulation core of the repository
(src/enemy.rs, src/player.rs, src/tower.rs, src/ground.rs).

Rust f32 arithmetic is modelled over the reals; glam vector types Vec2 and
Vec3 become componentwise structures with the same operations the source
uses (sub, scalar mul, length, normalize, swizzles, distance).  Fallible
operations (the out-of-bounds waypoint index, the poisoned read lock, a
pathfinding error) are modelled with Option / an explicit result type.
External capabilities of the oxidized_navigation crate (find_path,
find_polygon_path, perform_string_pulling_on_path) are parameters, as the
spec treats them as external collaborators.
-/

open Classical

noncomputable section

/-- Model of glam Vec2: a pair of real coordinates. -/
structure Vec2 where
  x : ℝ
  y : ℝ

/-- Model of glam / bevy Vec3: a triple of real coordinates. -/
structure Vec3 where
  x : ℝ
  y : ℝ
  z : ℝ

instance : Add Vec2 := ⟨fun a b => ⟨a.x + b.x, a.y + b.y⟩⟩

instance : Sub Vec2 := ⟨fun a b => ⟨a.x - b.x, a.y - b.y⟩⟩

instance : SMul ℝ Vec2 := ⟨fun c v => ⟨c * v.x, c * v.y⟩⟩

instance : Add Vec3 := ⟨fun a b => ⟨a.x + b.x, a.y + b.y, a.z + b.z⟩⟩

instance : Sub Vec3 := ⟨fun a b => ⟨a.x - b.x, a.y - b.y, a.z - b.z⟩⟩

instance : SMul ℝ Vec3 := ⟨fun c v => ⟨c * v.x, c * v.y, c * v.z⟩⟩

/-- Vec2::length: Euclidean norm. -/
def Vec2.length (v : Vec2) : ℝ := Real.sqrt (v.x ^ 2 + v.y ^ 2)

/-- Vec2::normalize: the vector divided by its length. -/
def Vec2.normalize (v : Vec2) : Vec2 := (v.length)⁻¹ • v

/-- Vec3::length: Euclidean norm. -/
def Vec3.length (v : Vec3) : ℝ := Real.sqrt (v.x ^ 2 + v.y ^ 2 + v.z ^ 2)

/-- Vec3::normalize. -/
def Vec3.normalize (v : Vec3) : Vec3 := (v.length)⁻¹ • v

/-- Vec3::distance(a, b) = (a - b).length(). -/
def Vec3.distance (a b : Vec3) : ℝ := (a - b).length

/-- Swizzle Vec3Swizzles::xz(), producing the horizontal-plane Vec2. -/
def Vec3.xz (v : Vec3) : Vec2 := ⟨v.x, v.z⟩

/-- Swizzle Vec3Swizzles::xzy(). -/
def Vec3.xzy (v : Vec3) : Vec3 := ⟨v.x, v.z, v.y⟩

/-- Vec2::extend(z): append a third coordinate. -/
def Vec2.extend (v : Vec2) (z : ℝ) : Vec3 := ⟨v.x, v.y, z⟩

@[simp] theorem Vec2.add_mk (a b : Vec2) : a + b = ⟨a.x + b.x, a.y + b.y⟩ := rfl

@[simp] theorem Vec2.sub_mk (a b : Vec2) : a - b = ⟨a.x - b.x, a.y - b.y⟩ := rfl

@[simp] theorem Vec2.smul_mk (c : ℝ) (v : Vec2) : c • v = ⟨c * v.x, c * v.y⟩ := rfl

@[simp] theorem Vec3.add_mk3 (a b : Vec3) : a + b = ⟨a.x + b.x, a.y + b.y, a.z + b.z⟩ := rfl

@[simp] theorem Vec3.sub_mk3 (a b : Vec3) : a - b = ⟨a.x - b.x, a.y - b.y, a.z - b.z⟩ := rfl

@[simp] theorem Vec3.smul_mk3 (c : ℝ) (v : Vec3) : c • v = ⟨c * v.x, c * v.y, c * v.z⟩ := rfl

/-! ### enemy.rs data model -/

/-- Component Target in src/enemy.rs: speed and the waypoint cursor. -/
structure Target where
  speed : ℝ
  path_index : ℕ

/-- Bevy Transform, reduced to the fields the core reads and writes: the
translation and the forward (facing) direction that look_at sets. -/
structure Transform where
  translation : Vec3
  forward : Vec3

/-- Transform::look_at(target, up): reorients so that the forward direction
points from the translation toward the target point (the up vector only
fixes roll, which no claim mentions). -/
def Transform.look_at (t : Transform) (target : Vec3) : Transform :=
  { t with forward := Vec3.normalize (target - t.translation) }

/-- The per-entity body of the move_targets loop in src/enemy.rs
(lines 120-135).  The waypoint lookup path.waypoints[target.path_index]
panics when the index is out of bounds; that panic is modelled as none. -/
def advance (waypoints : List Vec2) (dt : ℝ) (target : Target) (transform : Transform) :
    Option (Target × Transform) :=
  match waypoints.get? target.path_index with
  | none => none
  | some wp =>
    let delta := target.speed * dt
    let delta_target := wp - transform.translation.xz
    if delta_target.length > delta then
      let movement := delta • delta_target.normalize
      let translation := transform.translation + (movement.extend 0).xzy
      let y := translation.y
      some (target,
        Transform.look_at { transform with translation := translation } ((wp.extend y).xzy))
    else
      some ({ target with path_index := target.path_index + 1 }, transform)

/-- The move_targets system: the loop body applied to every queried entity;
a panic in any iteration aborts the system (none). -/
def move_targets (waypoints : List Vec2) (dt : ℝ) (targets : List (Target × Transform)) :
    Option (List (Target × Transform)) :=
  targets.mapM (fun e => advance waypoints dt e.1 e.2)

/-- The TargetPath resource inserted by EnemyPlugin::build. -/
def targetPathWaypoints : List Vec2 := [⟨6, 2⟩, ⟨6, 6⟩, ⟨9, 9⟩]

/-! ### player.rs and the lifecycle systems of enemy.rs -/

/-- Component Player in src/player.rs; money and health are u32, health is
modelled as an integer so that the saturation behaviour of hurt_player is
visible rather than imposed by the type. -/
structure Player where
  money : ℤ
  health : ℤ

/-- The spawn startup system of src/player.rs. -/
def player_spawn : Player := { money := 100, health := 10 }

/-- One enemy entity as the two lifecycle systems of src/enemy.rs query it:
a stable id, its Health component value, and its Target component. -/
structure Enemy where
  id : ℕ
  health : ℤ
  target : Target

/-- The target_death system (src/enemy.rs lines 72-84): for every entity
whose health value is at most 0, one TargetDeathEvent is sent and a
recursive despawn command is queued.  Returns the number of death events
and the ids queued for despawn, in query order. -/
def target_death : List Enemy → ℕ × List ℕ
  | [] => (0, [])
  | e :: rest =>
    let r := target_death rest
    if e.health ≤ 0 then (r.1 + 1, e.id :: r.2) else r

/-- The hurt_player system (src/enemy.rs lines 86-113): for every entity
whose path_index has reached the waypoint count, a despawn command is
queued, the singleton player loses 1 health unless already at 0, and
"GAME OVER" is signalled whenever the player health is then exactly 0.
Returns the despawned ids, the updated player, and how many game-over
signals were emitted. -/
def hurt_player (len : ℕ) : List Enemy → Player → List ℕ × Player × ℕ
  | [], p => ([], p, 0)
  | e :: rest, p =>
    if len ≤ e.target.path_index then
      let h1 := if 0 < p.health then p.health - 1 else p.health
      let go : ℕ := if h1 = 0 then 1 else 0
      let r := hurt_player len rest { p with health := h1 }
      (e.id :: r.1, r.2.1, go + r.2.2)
    else
      hurt_player len rest p

/-- One Update-schedule pass of the two lifecycle systems over the same
entity snapshot.  Commands are deferred in bevy, so target_death and
hurt_player both observe the pre-tick entities; the queued despawn
commands are merged when applied (despawning an already-despawned entity
is a no-op warning).  Returns (survivors, player after, death events,
game-over signals). -/
def enemy_update_tick (len : ℕ) (enemies : List Enemy) (player : Player) :
    List Enemy × Player × ℕ × ℕ :=
  let td := target_death enemies
  let hp := hurt_player len enemies player
  (enemies.filter (fun e => !(td.2.contains e.id || hp.1.contains e.id)),
   hp.2.1, td.1, hp.2.2)

/-! ### tower.rs -/

/-- Component Bullet as tower_shooting constructs it. -/
structure Bullet where
  direction : Vec3
  speed : ℝ

/-- Rust Iterator::min_by_key: the first element attaining the minimal key
(on ties the earlier element is kept). -/
def min_by_key {α : Type} (key : α → ℝ) : List α → Option α
  | [] => none
  | a :: l =>
    match min_by_key key l with
    | none => some a
    | some b => if key b < key a then some b else some a

/-- The target-selection expression of tower_shooting (src/tower.rs lines
113-121): filter the queried target translations to those strictly within
range of the bullet spawn point, then take the minimum-distance one. -/
def tower_shooting_select (bullet_spawn : Vec3) (range : ℝ) (targets : List Vec3) :
    Option Vec3 :=
  min_by_key (fun t => Vec3.distance t bullet_spawn)
    (targets.filter (fun t => decide (Vec3.distance t bullet_spawn < range)))

/-- The body of tower_shooting for one tower on one tick (src/tower.rs
lines 108-147), given whether the shooting timer just finished: when it
did, one bullet is spawned toward the selected target, none otherwise. -/
def tower_shooting (just_finished : Bool) (tower_translation bullet_offset : Vec3)
    (range : ℝ) (targets : List Vec3) : List Bullet :=
  if just_finished then
    let bullet_spawn := tower_translation + bullet_offset
    match tower_shooting_select bullet_spawn range targets with
    | some closest_target => [{ direction := closest_target - bullet_spawn, speed := 5 }]
    | none => []
  else []

end

/-! ### ground.rs: the async pathfinding task manager and the blocking query -/

/-- The observable state of one Task in AsyncPathfindingTasks: still
pending, or finished with its Option result (some points, or none for
"no path"). -/
inductive TaskState
  | pending
  | ready (r : Option (List Vec3))

/-- futures_lite poll_once on a task: none while the task is pending, the
task's result once it has finished. -/
def poll_once : TaskState → Option (Option (List Vec3))
  | .pending => none
  | .ready r => some r

/-- The poll_pathfinding_tasks_system of src/ground.rs (lines 112-131):
retain_mut over the task list, where a task is dropped (and its path
spawned as a DrawPath) exactly when poll_once(task).unwrap_or(None) is
Some, and retained otherwise.  Returns the retained tasks and the spawned
paths. -/
def poll_pathfinding_tasks_system : List TaskState → List TaskState × List (List Vec3)
  | [] => ([], [])
  | t :: rest =>
    let r := poll_pathfinding_tasks_system rest
    match (poll_once t).getD none with
    | some string_path => (r.1, string_path :: r.2)
    | none => (t :: r.1, r.2)

/-- Result of RwLock::read(): the guard, or the poisoned-lock error. -/
inductive LockResult (α : Type)
  | ok (a : α)
  | poisoned

/-- One log line: the info! or error! macro was invoked. Only the
occurrence and level of logging matter to the spec, not the text. -/
inductive LogMsg
  | info
  | err

/-- The async_path_find wrapper of src/ground.rs (lines 134-163), with the
external find_path query of oxidized_navigation as a parameter.  On a
failed (poisoned) read-lock acquisition it returns None at once; on a
successful query it logs info and returns the path; on a query error it
logs the error and falls through to None. -/
def async_path_find {μ : Type} (nav_mesh_lock : LockResult μ)
    (find_path : μ → Except String (List Vec3)) : Option (List Vec3) × List LogMsg :=
  match nav_mesh_lock with
  | .poisoned => (none, [])
  | .ok nav_mesh =>
    match find_path nav_mesh with
    | .ok path => (some path, [.info])
    | .error _ => (none, [.err])

/-- The run_blocking_pathfinding system of src/ground.rs (lines 23-66),
with the external polygon-path query and string pulling as parameters.
Returns the DrawPath paths spawned and the log lines, in order.  When the
read lock is poisoned the if-let falls through and the system returns
silently. -/
def run_blocking_pathfinding {μ π : Type} (pressed_b : Bool) (nav_mesh_lock : LockResult μ)
    (find_polygon_path : μ → Except String π)
    (string_pull : μ → π → Except String (List Vec3)) :
    List (List Vec3) × List LogMsg :=
  if !pressed_b then ([], [])
  else
    match nav_mesh_lock with
    | .poisoned => ([], [])
    | .ok nav_mesh =>
      match find_polygon_path nav_mesh with
      | .ok path =>
        match string_pull nav_mesh path with
        | .ok string_path => ([string_path], [.info, .info])
        | .error _ => ([], [.info, .err])
      | .error _ => ([], [.err])

/-! ### Iterated ticks, for the properties stated over tick sequences -/

noncomputable section

/-- Iterate the move_targets loop body over a list of per-tick dt values on
one entity (used for the cumulative-dt property). -/
def run_moves (waypoints : List Vec2) : List ℝ → Target → Transform → Option (Target × Transform)
  | [], t, tr => some (t, tr)
  | dt :: rest, t, tr =>
    match advance waypoints dt t tr with
    | none => none
    | some (t', tr') => run_moves waypoints rest t' tr'

/-- One full tick on one entity: move_targets, then the hurt_player
despawn decision (hurt_player runs after move_targets each Update and its
despawn command is applied before the next tick).  The Bool records
whether the entity is still alive afterwards. -/
def tick_entity (waypoints : List Vec2) (dt : ℝ) (t : Target) (tr : Transform) :
    Option (Target × Transform × Bool) :=
  match advance waypoints dt t tr with
  | none => none
  | some (t', tr') => some (t', tr', decide (t'.path_index < waypoints.length))

/-- Iterate tick_entity over a list of per-tick dt values, stopping once
the entity has been despawned. -/
def run_ticks (waypoints : List Vec2) : List ℝ → Target → Transform →
    Option (Target × Transform × Bool)
  | [], t, tr => some (t, tr, true)
  | dt :: rest, t, tr =>
    match tick_entity waypoints dt t tr with
    | none => none
    | some (t', tr', alive) =>
      if alive then run_ticks waypoints rest t' tr' else some (t', tr', false)

end

/-! ## Helper lemmas -/

theorem Vec2.length_nonneg (v : Vec2) : 0 ≤ v.length := Real.sqrt_nonneg _

theorem Vec2.length_mk_up (a : ℝ) (h : 0 ≤ a) : (⟨0, a⟩ : Vec2).length = a := by
  unfold Vec2.length
  norm_num
  exact Real.sqrt_sq h

theorem Vec3.length_mk_z (a : ℝ) (h : 0 ≤ a) : (⟨0, 0, a⟩ : Vec3).length = a := by
  unfold Vec3.length
  norm_num
  exact Real.sqrt_sq h

theorem Vec3.length_mk_x (a : ℝ) (h : 0 ≤ a) : (⟨a, 0, 0⟩ : Vec3).length = a := by
  unfold Vec3.length
  norm_num
  exact Real.sqrt_sq h

theorem Vec2.length_smul (c : ℝ) (v : Vec2) : (c • v).length = |c| * v.length := by
  unfold Vec2.length
  rw [Vec2.smul_mk]
  rw [show (c * v.x) ^ 2 + (c * v.y) ^ 2 = c ^ 2 * (v.x ^ 2 + v.y ^ 2) by ring]
  rw [Real.sqrt_mul (sq_nonneg c), Real.sqrt_sq_eq_abs]

theorem advance_far (waypoints : List Vec2) (dt : ℝ) (t : Target) (tr : Transform) (wp : Vec2)
    (hwp : waypoints.get? t.path_index = some wp)
    (hfar : (wp - tr.translation.xz).length > t.speed * dt) :
    advance waypoints dt t tr =
      some (t,
        Transform.look_at
          { tr with translation := tr.translation +
              ((((t.speed * dt) • (wp - tr.translation.xz).normalize).extend 0).xzy) }
          ((wp.extend (tr.translation +
              ((((t.speed * dt) • (wp - tr.translation.xz).normalize).extend 0).xzy)).y).xzy)) := by
  unfold advance
  rw [hwp]
  simp only [hfar, if_pos]

theorem advance_near (waypoints : List Vec2) (dt : ℝ) (t : Target) (tr : Transform) (wp : Vec2)
    (hwp : waypoints.get? t.path_index = some wp)
    (hnear : ¬ (wp - tr.translation.xz).length > t.speed * dt) :
    advance waypoints dt t tr = some ({ t with path_index := t.path_index + 1 }, tr) := by
  unfold advance
  rw [hwp]
  simp only [hnear, if_neg, ite_false]

theorem advance_some_of_index_lt (waypoints : List Vec2) (dt : ℝ) (t : Target) (tr : Transform)
    (h : t.path_index < waypoints.length) :
    ∃ t' tr', advance waypoints dt t tr = some (t', tr') ∧
      t.path_index ≤ t'.path_index ∧ t'.path_index ≤ t.path_index + 1 := by
  have hg := List.get?_eq_get h
  by_cases hfar : (waypoints.get ⟨t.path_index, h⟩ - tr.translation.xz).length > t.speed * dt
  · exact ⟨t, _, advance_far waypoints dt t tr _ hg hfar, le_refl _, Nat.le_succ _⟩
  · exact ⟨_, tr, advance_near waypoints dt t tr _ hg hfar, Nat.le_succ _, le_refl _⟩

/-! ## Claims -/

/-- C1: the per-tick poll operation is claimed to remove every completed
task from the pending collection in the same call, for both terminal
outcomes (a point sequence, or None for "no path").  The code pipes
poll_once through unwrap_or(None), which conflates a still-pending task
with a task that completed with None: a task that completed with the
terminal outcome "no path" is retained in the collection and polled again
on every later tick, contradicting the code's own comment ("Go through and
remove completed tasks").  This theorem evaluates the system at that
failing input: the finished no-path task is kept, and nothing is spawned. -/
theorem poll_retains_completed_no_path_task :
    poll_pathfinding_tasks_system [TaskState.ready none] = ([TaskState.ready none], []) := rfl

/-- C3 counterexample: when read-lock acquisition fails (poisoned lock),
both query paths return with an empty log: the failure is not logged,
contrary to the claim. -/
theorem lock_failure_not_logged_counterexample :
    (async_path_find (μ := Unit) LockResult.poisoned (fun _ => Except.error "x")).2 = [] ∧
    (run_blocking_pathfinding (μ := Unit) (π := Unit) true LockResult.poisoned
      (fun _ => Except.ok ()) (fun _ _ => Except.ok [])).2 = [] :=
  ⟨rfl, rfl⟩

/-- C3 amended: when read-lock acquisition fails, both the blocking query
system and the async wrapper return normally for that call only, behaving
as if no path was found (None result, no DrawPath spawned) and without
panicking, but the failure is silent: no log line is produced. -/
theorem lock_failure_silent_no_path {μ π : Type} (pressed : Bool)
    (find_path : μ → Except String (List Vec3))
    (find_polygon_path : μ → Except String π)
    (string_pull : μ → π → Except String (List Vec3)) :
    async_path_find LockResult.poisoned find_path = (none, []) ∧
    run_blocking_pathfinding pressed LockResult.poisoned find_polygon_path string_pull
      = ([], []) := by
  refine ⟨rfl, ?_⟩
  cases pressed <;> rfl

/-- C7: the movement update is total on live entities: under the
precondition path_index < len(path) the waypoint lookup is in bounds and
advance reaches no panic branch (it returns some result). -/
theorem advance_total_on_live_entity (waypoints : List Vec2) (dt : ℝ) (t : Target)
    (tr : Transform) (h : t.path_index < waypoints.length) :
    ∃ r, advance waypoints dt t tr = some r := by
  obtain ⟨t', tr', heq, -, -⟩ := advance_some_of_index_lt waypoints dt t tr h
  exact ⟨(t', tr'), heq⟩

/-- C7 witness: the freshly spawned enemy (path_index 0) against the
three-waypoint TargetPath. -/
theorem advance_total_on_live_entity_witness :
    ∃ r, advance targetPathWaypoints 1 ⟨0.25, 0⟩ ⟨⟨-2, 0, 2.5⟩, ⟨0, 0, 1⟩⟩ = some r :=
  advance_total_on_live_entity targetPathWaypoints 1 ⟨0.25, 0⟩ ⟨⟨-2, 0, 2.5⟩, ⟨0, 0, 1⟩⟩
    (by decide)

/-- C8: when an entity's path_index has reached the waypoint count,
hurt_player despawns it, deducts exactly 1 from the singleton player's
health saturating at zero (never negative), and signals GAME OVER exactly
when the player's health is then exactly zero. -/
theorem hurt_player_path_completion (len : ℕ) (e : Enemy) (p : Player)
    (hidx : len ≤ e.target.path_index) (hp : 0 ≤ p.health) :
    (hurt_player len [e] p).1 = [e.id] ∧
    (hurt_player len [e] p).2.1.health = max (p.health - 1) 0 ∧
    0 ≤ (hurt_player len [e] p).2.1.health ∧
    ((hurt_player len [e] p).2.2 = 1 ↔ (hurt_player len [e] p).2.1.health = 0) := by
  simp only [hurt_player, if_pos hidx]
  split_ifs with h0 h1 <;> simp_all <;> omega

/-- C8 witness: the player at 1 health loses its last point when the enemy
reaches the end of the three-waypoint path, and GAME OVER is signalled. -/
theorem hurt_player_path_completion_witness :
    (hurt_player 3 [⟨7, 3, ⟨1, 3⟩⟩] ⟨100, 1⟩).1 = [7] ∧
    (hurt_player 3 [⟨7, 3, ⟨1, 3⟩⟩] ⟨100, 1⟩).2.1.health = max ((1 : ℤ) - 1) 0 ∧
    (0 : ℤ) ≤ (hurt_player 3 [⟨7, 3, ⟨1, 3⟩⟩] ⟨100, 1⟩).2.1.health ∧
    ((hurt_player 3 [⟨7, 3, ⟨1, 3⟩⟩] ⟨100, 1⟩).2.2 = 1 ↔
      (hurt_player 3 [⟨7, 3, ⟨1, 3⟩⟩] ⟨100, 1⟩).2.1.health = 0) :=
  hurt_player_path_completion 3 ⟨7, 3, ⟨1, 3⟩⟩ ⟨100, 1⟩ (by decide) (by decide)

theorem target_death_one_event_of_mem (l : List Enemy) (e : Enemy)
    (he : e ∈ l) (hh : e.health ≤ 0) : 1 ≤ (target_death l).1 := by
  induction l with
  | nil => cases he
  | cons a rest ih =>
    simp only [target_death]
    rcases List.mem_cons.mp he with rfl | hmem
    · rw [if_pos hh]; omega
    · split
      · omega
      · exact ih hmem

theorem target_death_despawns_of_mem (l : List Enemy) (e : Enemy)
    (he : e ∈ l) (hh : e.health ≤ 0) : e.id ∈ (target_death l).2 := by
  induction l with
  | nil => cases he
  | cons a rest ih =>
    simp only [target_death]
    rcases List.mem_cons.mp he with rfl | hmem
    · rw [if_pos hh]; exact List.mem_cons_self _ _
    · split
      · exact List.mem_cons_of_mem _ (ih hmem)
      · exact ih hmem

theorem hurt_player_health_le (len : ℕ) (l : List Enemy) (p : Player) :
    (hurt_player len l p).2.1.health ≤ p.health := by
  induction l generalizing p with
  | nil => exact le_refl _
  | cons a rest ih =>
    simp only [hurt_player]
    split
    · have h1le : (if 0 < p.health then p.health - 1 else p.health) ≤ p.health := by
        split <;> omega
      exact le_trans (ih { p with health := if 0 < p.health then p.health - 1 else p.health })
        h1le
    · exact ih p

theorem hurt_player_health_lt (len : ℕ) (l : List Enemy) (p : Player) (e : Enemy)
    (he : e ∈ l) (hi : len ≤ e.target.path_index) (hp : 0 < p.health) :
    (hurt_player len l p).2.1.health < p.health := by
  induction l generalizing p with
  | nil => cases he
  | cons a rest ih =>
    simp only [hurt_player]
    by_cases ha : len ≤ a.target.path_index
    · rw [if_pos ha, if_pos hp]
      have h2 : (hurt_player len rest { p with health := p.health - 1 }).2.1.health
          ≤ p.health - 1 := hurt_player_health_le len rest { p with health := p.health - 1 }
      exact lt_of_le_of_lt h2 (by omega)
    · rw [if_neg ha]
      rcases List.mem_cons.mp he with rfl | hmem
      · exact absurd hi ha
      · exact ih p hmem hp

/-- C2 counterexample: an entity whose health is exactly 0 and whose
path_index has simultaneously reached the end of the 3-waypoint path, in
one Update tick against the freshly spawned player (health 10): the death
cause emits its TargetDeathEvent AND the path-completion cause decrements
the player's health to 9 in the same tick, so the entity destroyed for
health <= 0 does cause a player-health decrement that tick, contrary to
the claimed mutual exclusion. -/
theorem both_destruction_causes_fire_counterexample :
    (enemy_update_tick 3 [⟨1, 0, ⟨1, 3⟩⟩] ⟨100, 10⟩).2.2.1 = 1 ∧
    (enemy_update_tick 3 [⟨1, 0, ⟨1, 3⟩⟩] ⟨100, 10⟩).2.1.health = 9 := by
  constructor <;> rfl

/-- C2 amended: the two destruction causes are not mutually exclusive
within a tick.  For an entity with health <= 0 whose path_index has also
reached the end of the path, both systems' effects apply in that tick: at
least one death event is emitted, the player-health decrement also occurs
(strictly, when the player had positive health), and the entity is removed
from the world (the two queued despawn commands are merged; the second is
a no-op). -/
theorem both_destruction_causes_apply (len : ℕ) (enemies : List Enemy) (p : Player)
    (e : Enemy) (he : e ∈ enemies) (hh : e.health ≤ 0)
    (hi : len ≤ e.target.path_index) (hp : 0 < p.health) :
    1 ≤ (enemy_update_tick len enemies p).2.2.1 ∧
    (enemy_update_tick len enemies p).2.1.health < p.health ∧
    e ∉ (enemy_update_tick len enemies p).1 := by
  refine ⟨target_death_one_event_of_mem enemies e he hh,
    hurt_player_health_lt len enemies p e he hi hp, ?_⟩
  intro hmem
  have hfil := (List.mem_filter.mp hmem).2
  have hdes := target_death_despawns_of_mem enemies e he hh
  simp only [Bool.not_eq_true', Bool.or_eq_false_iff] at hfil
  have : (target_death enemies).2.contains e.id = true := by
    exact List.elem_eq_true_of_mem hdes
  rw [this] at hfil
  exact absurd hfil.1 (by simp)

/-- C2 amended witness: the concrete counterexample entity run through the
amended statement. -/
theorem both_destruction_causes_apply_witness :
    1 ≤ (enemy_update_tick 3 [⟨1, 0, ⟨1, 3⟩⟩] ⟨100, 10⟩).2.2.1 ∧
    (enemy_update_tick 3 [⟨1, 0, ⟨1, 3⟩⟩] ⟨100, 10⟩).2.1.health < 10 ∧
    (⟨1, 0, ⟨1, 3⟩⟩ : Enemy) ∉ (enemy_update_tick 3 [⟨1, 0, ⟨1, 3⟩⟩] ⟨100, 10⟩).1 :=
  both_destruction_causes_apply 3 [⟨1, 0, ⟨1, 3⟩⟩] ⟨100, 10⟩ ⟨1, 0, ⟨1, 3⟩⟩
    (List.Mem.head _) (by decide) (by decide) (by decide)

theorem Vec2.length_normalize (v : Vec2) (h : 0 < v.length) : v.normalize.length = 1 := by
  unfold Vec2.normalize
  rw [Vec2.length_smul, abs_of_nonneg (inv_nonneg.mpr (le_of_lt h))]
  field_simp

/-- C10: in the arrival branch (remaining horizontal distance at most
step = speed * dt) only path_index changes, by exactly 1: the returned
transform is the input transform, so all three position coordinates and
the orientation are untouched and the entity is not snapped onto the
waypoint. -/
theorem advance_arrival_frame_effect (waypoints : List Vec2) (dt : ℝ) (t : Target)
    (tr : Transform) (wp : Vec2) (hwp : waypoints.get? t.path_index = some wp)
    (hnear : (wp - tr.translation.xz).length ≤ t.speed * dt) :
    advance waypoints dt t tr = some ({ t with path_index := t.path_index + 1 }, tr) :=
  advance_near waypoints dt t tr wp hwp (not_lt.mpr hnear)

/-- C10 witness: an entity 2 units (horizontally) before the first
waypoint with step 1 * 2 = 2: path_index goes 0 to 1, transform
unchanged. -/
theorem advance_arrival_frame_effect_witness :
    advance targetPathWaypoints 2 ⟨1, 0⟩ ⟨⟨6, 0, 0⟩, ⟨0, 0, 1⟩⟩
      = some (⟨1, 1⟩, ⟨⟨6, 0, 0⟩, ⟨0, 0, 1⟩⟩) :=
  advance_arrival_frame_effect targetPathWaypoints 2 ⟨1, 0⟩ ⟨⟨6, 0, 0⟩, ⟨0, 0, 1⟩⟩ ⟨6, 2⟩ rfl
    (by
      rw [show ((⟨6, 2⟩ : Vec2) - (⟨6, 0, 0⟩ : Vec3).xz) = (⟨0, 2⟩ : Vec2) by
        simp [Vec3.xz]]
      rw [Vec2.length_mk_up 2 (by norm_num)]
      norm_num)

/-- C4: one movement update on an entity with its waypoint in bounds and a
nonnegative step: if the horizontal distance to the waypoint exceeds
step = speed * dt, the horizontal position moves by exactly step along the
normalized horizontal direction toward the waypoint (height unchanged,
path_index unchanged) and the heading is reoriented yaw-only toward the
waypoint; otherwise path_index is incremented by exactly 1 and never
more. -/
theorem advance_step_spec (waypoints : List Vec2) (dt : ℝ) (t : Target) (tr : Transform)
    (wp : Vec2) (hwp : waypoints.get? t.path_index = some wp) (hs : 0 ≤ t.speed * dt) :
    ((wp - tr.translation.xz).length > t.speed * dt →
      ∃ tr', advance waypoints dt t tr = some (t, tr') ∧
        tr'.translation.xz
          = tr.translation.xz + (t.speed * dt) • (wp - tr.translation.xz).normalize ∧
        tr'.translation.y = tr.translation.y ∧
        (tr'.translation.xz - tr.translation.xz).length = t.speed * dt ∧
        tr'.forward.y = 0 ∧
        tr'.forward = Vec3.normalize ((wp.extend tr'.translation.y).xzy - tr'.translation)) ∧
    ((wp - tr.translation.xz).length ≤ t.speed * dt →
      advance waypoints dt t tr = some ({ t with path_index := t.path_index + 1 }, tr)) := by
  constructor
  · intro hfar
    have hdpos : 0 < (wp - tr.translation.xz).length := lt_of_le_of_lt hs hfar
    refine ⟨_, advance_far waypoints dt t tr wp hwp hfar, ?_, ?_, ?_, ?_, ?_⟩
    · simp only [Transform.look_at, Vec3.xz, Vec3.xzy, Vec2.extend, Vec3.add_mk3,
        Vec2.add_mk, Vec2.smul_mk]
    · simp only [Transform.look_at, Vec3.xzy, Vec2.extend, Vec3.add_mk3]
      ring
    · have hrw : ((tr.translation +
          ((((t.speed * dt) • (wp - tr.translation.xz).normalize).extend 0)).xzy).xz
            - tr.translation.xz)
          = (t.speed * dt) • (wp - tr.translation.xz).normalize := by
        simp only [Vec3.xz, Vec3.xzy, Vec2.extend, Vec3.add_mk3, Vec2.sub_mk,
          Vec2.smul_mk]
        ring_nf
      simp only [Transform.look_at]
      rw [hrw, Vec2.length_smul, Vec2.length_normalize _ hdpos, abs_of_nonneg hs, mul_one]
    · simp only [Transform.look_at, Vec3.normalize, Vec3.xzy, Vec2.extend, Vec3.add_mk3,
        Vec3.sub_mk3, Vec3.smul_mk3]
      ring
    · simp only [Transform.look_at]
  · intro hnear
    exact advance_near waypoints dt t tr wp hwp (not_lt.mpr hnear)

/-- C4 witness: an entity 2 horizontal units before the first waypoint
with step 1: it moves by exactly 1 along the normalized direction, keeps
its height and path_index, and faces the waypoint yaw-only. -/
theorem advance_step_spec_witness :
    ∃ tr', advance targetPathWaypoints 1 ⟨1, 0⟩ ⟨⟨6, 0, 0⟩, ⟨0, 0, 1⟩⟩ = some (⟨1, 0⟩, tr') ∧
      tr'.translation.xz
        = (⟨6, 0⟩ : Vec2) + ((1 : ℝ) * 1) • ((⟨6, 2⟩ : Vec2) - ⟨6, 0⟩).normalize ∧
      tr'.translation.y = 0 ∧
      (tr'.translation.xz - (⟨6, 0⟩ : Vec2)).length = (1 : ℝ) * 1 ∧
      tr'.forward.y = 0 ∧
      tr'.forward = Vec3.normalize (((⟨6, 2⟩ : Vec2).extend tr'.translation.y).xzy
        - tr'.translation) :=
  (advance_step_spec targetPathWaypoints 1 ⟨1, 0⟩ ⟨⟨6, 0, 0⟩, ⟨0, 0, 1⟩⟩ ⟨6, 2⟩ rfl
      (show (0 : ℝ) ≤ 1 * 1 by norm_num)).1
    (by
      show ((⟨6, 2⟩ : Vec2) - (⟨6, 0, 0⟩ : Vec3).xz).length > 1 * 1
      rw [show ((⟨6, 2⟩ : Vec2) - (⟨6, 0, 0⟩ : Vec3).xz) = (⟨0, 2⟩ : Vec2) by
        simp [Vec3.xz]]
      rw [Vec2.length_mk_up 2 (by norm_num)]
      norm_num)

/-- C6: over any sequence of ticks (movement then lifecycle despawn),
starting from a live entity (path_index within bounds), no tick panics,
path_index is non-decreasing and never exceeds the number of waypoints,
and an entity still alive at the end is strictly below the bound (the
lifecycle rule despawned any entity that reached it before it could be
moved again). -/
theorem path_index_monotone_bounded (waypoints : List Vec2) (dts : List ℝ) (t : Target)
    (tr : Transform) (h : t.path_index < waypoints.length) :
    ∃ t' tr' alive, run_ticks waypoints dts t tr = some (t', tr', alive) ∧
      t.path_index ≤ t'.path_index ∧ t'.path_index ≤ waypoints.length ∧
      (alive = true → t'.path_index < waypoints.length) := by
  induction dts generalizing t tr with
  | nil => exact ⟨t, tr, true, rfl, le_refl _, le_of_lt h, fun _ => h⟩
  | cons dt rest ih =>
    obtain ⟨t1, tr1, heq, hmono, hbound⟩ := advance_some_of_index_lt waypoints dt t tr h
    simp only [run_ticks, tick_entity, heq]
    by_cases halive : t1.path_index < waypoints.length
    · rw [if_pos (by simpa using halive)]
      obtain ⟨t', tr', alive, hrun, h1, h2, h3⟩ := ih t1 tr1 halive
      exact ⟨t', tr', alive, hrun, le_trans hmono h1, h2, h3⟩
    · rw [if_neg (by simpa using halive)]
      exact ⟨t1, tr1, false, rfl, hmono, by omega, by simp⟩

/-- C6 witness: one tick of the freshly spawned enemy against the
three-waypoint path. -/
theorem path_index_monotone_bounded_witness :
    ∃ t' tr' alive, run_ticks targetPathWaypoints [1] ⟨0.25, 0⟩ ⟨⟨-2, 0, 2.5⟩, ⟨0, 0, 1⟩⟩
        = some (t', tr', alive) ∧
      0 ≤ t'.path_index ∧ t'.path_index ≤ targetPathWaypoints.length ∧
      (alive = true → t'.path_index < targetPathWaypoints.length) :=
  path_index_monotone_bounded targetPathWaypoints [1] ⟨0.25, 0⟩ ⟨⟨-2, 0, 2.5⟩, ⟨0, 0, 1⟩⟩
    (by decide)

theorem min_by_key_eq_none_iff {α : Type} (key : α → ℝ) (l : List α) :
    min_by_key key l = none ↔ l = [] := by
  cases l with
  | nil => simp [min_by_key]
  | cons a rest =>
    simp only [min_by_key]
    constructor
    · intro h
      cases hr : min_by_key key rest with
      | none => rw [hr] at h; cases h
      | some b =>
        rw [hr] at h
        have h2 : (if key b < key a then some b else some a) = none := h
        split_ifs at h2 <;> cases h2
    · intro h
      cases h

theorem min_by_key_first_min {α : Type} (key : α → ℝ) (l : List α) (a : α)
    (h : min_by_key key l = some a) :
    ∃ l1 l2, l = l1 ++ a :: l2 ∧ (∀ u ∈ l1, key a < key u) ∧ ∀ u ∈ l, key a ≤ key u := by
  induction l generalizing a with
  | nil => simp [min_by_key] at h
  | cons b rest ih =>
    rw [min_by_key] at h
    cases hr : min_by_key key rest with
    | none =>
      rw [hr] at h
      have hb : b = a := by injection h
      subst hb
      have hrest : rest = [] := (min_by_key_eq_none_iff key rest).mp hr
      subst hrest
      exact ⟨[], [], rfl, by simp, by simp⟩
    | some c =>
      rw [hr] at h
      have h' : (if key c < key b then some c else some b) = some a := h
      by_cases hkey : key c < key b
      · rw [if_pos hkey] at h'
        have hc : c = a := by injection h'
        subst hc
        obtain ⟨l1, l2, hsplit, hfirst, hmin⟩ := ih c hr
        refine ⟨b :: l1, l2, by rw [hsplit, List.cons_append], ?_, ?_⟩
        · intro u hu
          rcases List.mem_cons.mp hu with rfl | hu1
          · exact hkey
          · exact hfirst u hu1
        · intro u hu
          rcases List.mem_cons.mp hu with rfl | hu1
          · exact le_of_lt hkey
          · exact hmin u hu1
      · rw [if_neg hkey] at h'
        have hb : b = a := by injection h'
        subst hb
        obtain ⟨-, -, -, -, hmin⟩ := ih c hr
        refine ⟨[], rest, rfl, by simp, ?_⟩
        intro u hu
        rcases List.mem_cons.mp hu with rfl | hu1
        · exact le_refl _
        · exact le_trans (not_lt.mp hkey) (hmin u hu1)

/-- C9: on a tick where the shooting timer just finished, tower_shooting
spawns exactly one bullet toward the selected target when some live target
is strictly within range of the muzzle (tower translation plus bullet
offset) and none otherwise (and none at all on ticks where the timer did
not just finish); the selected target is a queried target strictly within
range, of minimal distance among the strictly-in-range candidates, and is
deterministically the first minimal-distance candidate in query iteration
order (so a target at distance at least range is never selected, and ties
are broken toward the earlier candidate). -/
theorem tower_shooting_engagement (tower_translation bullet_offset : Vec3) (range : ℝ)
    (targets : List Vec3) :
    (tower_shooting false tower_translation bullet_offset range targets = []) ∧
    ((∀ u ∈ targets, ¬ Vec3.distance u (tower_translation + bullet_offset) < range) →
      tower_shooting true tower_translation bullet_offset range targets = []) ∧
    ((∃ u ∈ targets, Vec3.distance u (tower_translation + bullet_offset) < range) →
      ∃ ct, tower_shooting_select (tower_translation + bullet_offset) range targets
          = some ct ∧
        tower_shooting true tower_translation bullet_offset range targets
          = [⟨ct - (tower_translation + bullet_offset), 5⟩]) ∧
    (∀ ct, tower_shooting_select (tower_translation + bullet_offset) range targets
        = some ct →
      ct ∈ targets ∧
      Vec3.distance ct (tower_translation + bullet_offset) < range ∧
      (∀ u ∈ targets, Vec3.distance u (tower_translation + bullet_offset) < range →
        Vec3.distance ct (tower_translation + bullet_offset)
          ≤ Vec3.distance u (tower_translation + bullet_offset)) ∧
      ∃ l1 l2,
        targets.filter
            (fun u => decide (Vec3.distance u (tower_translation + bullet_offset) < range))
          = l1 ++ ct :: l2 ∧
        ∀ u ∈ l1, Vec3.distance ct (tower_translation + bullet_offset)
          < Vec3.distance u (tower_translation + bullet_offset)) := by
  refine ⟨rfl, ?_, ?_, ?_⟩
  · intro hnone
    have hfil : targets.filter
        (fun u => decide (Vec3.distance u (tower_translation + bullet_offset) < range))
        = [] := by
      rw [List.filter_eq_nil]
      intro u hu
      simpa using hnone u hu
    simp only [tower_shooting, tower_shooting_select, hfil, min_by_key, if_true]
  · intro ⟨u, hu, hdist⟩
    cases hsel : tower_shooting_select (tower_translation + bullet_offset) range targets with
    | none =>
      exfalso
      have hfil := (min_by_key_eq_none_iff _ _).mp hsel
      have := List.filter_eq_nil.mp hfil u hu
      simp at this
      exact absurd hdist (not_lt.mpr this)
    | some ct =>
      exact ⟨ct, rfl, by simp only [tower_shooting, hsel, if_true]⟩
  · intro ct hsel
    obtain ⟨l1, l2, hsplit, hfirst, hmin⟩ := min_by_key_first_min _ _ ct hsel
    have hctfil : ct ∈ targets.filter
        (fun u => decide (Vec3.distance u (tower_translation + bullet_offset) < range)) := by
      rw [hsplit]
      exact List.mem_append_right _ (List.mem_cons_self _ _)
    have hctmem := List.mem_filter.mp hctfil
    refine ⟨hctmem.1, by simpa using hctmem.2, ?_, l1, l2, hsplit, hfirst⟩
    intro u hu hudist
    exact hmin u (List.mem_filter.mpr ⟨hu, by simpa using hudist⟩)

/-- C9 witness: the spec scenario of a defender at the origin with range
10 and two targets at distances 5 and 8: exactly one bullet is spawned,
toward the distance-5 target. -/
theorem tower_shooting_engagement_witness :
    ∃ ct, tower_shooting_select ((⟨0, 0, 0⟩ : Vec3) + ⟨0, 0, 0⟩) 10
        [⟨5, 0, 0⟩, ⟨8, 0, 0⟩] = some ct ∧
      tower_shooting true ⟨0, 0, 0⟩ ⟨0, 0, 0⟩ 10 [⟨5, 0, 0⟩, ⟨8, 0, 0⟩]
        = [⟨ct - ((⟨0, 0, 0⟩ : Vec3) + ⟨0, 0, 0⟩), 5⟩] :=
  (tower_shooting_engagement ⟨0, 0, 0⟩ ⟨0, 0, 0⟩ 10 [⟨5, 0, 0⟩, ⟨8, 0, 0⟩]).2.2.1
    ⟨⟨5, 0, 0⟩, List.Mem.head _, by
      rw [Vec3.distance, show ((⟨0, 0, 0⟩ : Vec3) + ⟨0, 0, 0⟩) = (⟨0, 0, 0⟩ : Vec3) by
        simp]
      rw [show ((⟨5, 0, 0⟩ : Vec3) - ⟨0, 0, 0⟩) = (⟨5, 0, 0⟩ : Vec3) by simp]
      rw [Vec3.length_mk_x 5 (by norm_num)]
      norm_num⟩

theorem advance_far_dist (waypoints : List Vec2) (dt : ℝ) (t : Target) (tr : Transform)
    (wp : Vec2) (hwp : waypoints.get? t.path_index = some wp) (hs : 0 ≤ t.speed * dt)
    (hfar : (wp - tr.translation.xz).length > t.speed * dt) :
    ∃ tr', advance waypoints dt t tr = some (t, tr') ∧
      (wp - tr'.translation.xz).length
        = (wp - tr.translation.xz).length - t.speed * dt := by
  have hrpos : 0 < (wp - tr.translation.xz).length := lt_of_le_of_lt hs hfar
  have hrne : (wp - tr.translation.xz).length ≠ 0 := ne_of_gt hrpos
  refine ⟨_, advance_far waypoints dt t tr wp hwp hfar, ?_⟩
  have hkey : wp - (Transform.look_at
        { tr with translation := tr.translation +
            ((((t.speed * dt) • (wp - tr.translation.xz).normalize).extend 0)).xzy }
        ((wp.extend (tr.translation +
            ((((t.speed * dt) • (wp - tr.translation.xz).normalize).extend 0)).xzy).y).xzy)
        ).translation.xz
      = (1 - (t.speed * dt) * ((wp - tr.translation.xz).length)⁻¹)
          • (wp - tr.translation.xz) := by
    simp only [Transform.look_at, Vec2.normalize, Vec3.xz, Vec3.xzy, Vec2.extend,
      Vec3.add_mk3, Vec2.sub_mk, Vec2.smul_mk, Vec2.mk.injEq]
    constructor <;> ring
  rw [hkey, Vec2.length_smul]
  have hfrac : (t.speed * dt) * ((wp - tr.translation.xz).length)⁻¹ < 1 := by
    rw [← div_eq_mul_inv]
    exact (div_lt_one hrpos).mpr hfar
  rw [abs_of_nonneg (by linarith)]
  rw [sub_mul, one_mul, mul_assoc, inv_mul_cancel₀ hrne, mul_one]

/-- C5 counterexample: entity at translation (6,0,0), speed 1, first
waypoint (6,2) at horizontal distance 2: two ticks of dt = 1 have
cumulative dt (2) equal to distance / speed exactly, yet the final
position is (6,0,1), one full step short of the waypoint — the arrival
tick increments path_index without moving the entity, so it does not land
exactly on the waypoint. -/
theorem cumulative_dt_lands_short_counterexample :
    run_moves targetPathWaypoints [1, 1] ⟨1, 0⟩ ⟨⟨6, 0, 0⟩, ⟨0, 0, 1⟩⟩
      = some (⟨1, 1⟩, ⟨⟨6, 0, 1⟩, ⟨0, 0, 1⟩⟩) ∧
    (⟨6, 0, 1⟩ : Vec3).xz ≠ (⟨6, 2⟩ : Vec2) ∧
    (1 : ℝ) * (1 + 1) = ((⟨6, 2⟩ : Vec2) - (⟨6, 0, 0⟩ : Vec3).xz).length := by
  have hd : ((⟨6, 2⟩ : Vec2) - (⟨6, 0, 0⟩ : Vec3).xz) = (⟨0, 2⟩ : Vec2) := by
    simp [Vec3.xz]
  have hlen2 : ((⟨0, 2⟩ : Vec2)).length = 2 := Vec2.length_mk_up 2 (by norm_num)
  have hnorm : ((⟨0, 2⟩ : Vec2)).normalize = ⟨0, 1⟩ := by
    rw [Vec2.normalize, hlen2]
    simp
  have step1 : advance targetPathWaypoints 1 ⟨1, 0⟩ ⟨⟨6, 0, 0⟩, ⟨0, 0, 1⟩⟩
      = some (⟨1, 0⟩, ⟨⟨6, 0, 1⟩, ⟨0, 0, 1⟩⟩) := by
    rw [advance_far targetPathWaypoints 1 ⟨1, 0⟩ ⟨⟨6, 0, 0⟩, ⟨0, 0, 1⟩⟩ ⟨6, 2⟩ rfl
      (by rw [hd, hlen2]; norm_num)]
    rw [hd, hnorm]
    have htrans : ((⟨6, 0, 0⟩ : Vec3) +
        ((((1 : ℝ) * 1) • (⟨0, 1⟩ : Vec2)).extend 0).xzy) = (⟨6, 0, 1⟩ : Vec3) := by
      simp [Vec2.extend, Vec3.xzy]
    rw [htrans]
    have hfwd : Transform.look_at ⟨⟨6, 0, 1⟩, ⟨0, 0, 1⟩⟩
        (((⟨6, 2⟩ : Vec2).extend (⟨6, 0, 1⟩ : Vec3).y).xzy) = ⟨⟨6, 0, 1⟩, ⟨0, 0, 1⟩⟩ := by
      rw [Transform.look_at]
      have hsub : ((⟨6, 2⟩ : Vec2).extend (⟨6, 0, 1⟩ : Vec3).y).xzy - (⟨6, 0, 1⟩ : Vec3)
          = (⟨0, 0, 1⟩ : Vec3) := by
        simp [Vec2.extend, Vec3.xzy]
        norm_num
      rw [hsub, Vec3.normalize, Vec3.length_mk_z 1 (by norm_num)]
      simp
    rw [hfwd]
  have step2 : advance targetPathWaypoints 1 ⟨1, 0⟩ ⟨⟨6, 0, 1⟩, ⟨0, 0, 1⟩⟩
      = some (⟨1, 1⟩, ⟨⟨6, 0, 1⟩, ⟨0, 0, 1⟩⟩) := by
    have hd1 : ((⟨6, 2⟩ : Vec2) - (⟨6, 0, 1⟩ : Vec3).xz) = (⟨0, 1⟩ : Vec2) := by
      simp [Vec3.xz]
      norm_num
    exact advance_near targetPathWaypoints 1 ⟨1, 0⟩ ⟨⟨6, 0, 1⟩, ⟨0, 0, 1⟩⟩ ⟨6, 2⟩ rfl
      (by rw [hd1, Vec2.length_mk_up 1 (by norm_num)]; norm_num)
  refine ⟨?_, ?_, ?_⟩
  · simp only [run_moves, step1, step2]
  · intro hcontra
    rw [Vec3.xz] at hcontra
    have := congrArg Vec2.y hcontra
    norm_num at this
  · rw [hd, hlen2]
    norm_num

/-- C5 amended: with per-tick dt values all positive whose cumulative sum
equals exactly (distance to the current waypoint) / speed, the run
converges monotonically (each far tick shortens the remaining distance by
exactly its step) but the entity does not land on the waypoint: the final
tick is an arrival tick that advances path_index by exactly 1 and leaves
the position one final step short — at distance speed * (last dt) from the
waypoint. -/
theorem run_moves_cumulative_dt (waypoints : List Vec2) (t : Target) (tr : Transform)
    (wp : Vec2) (dts : List ℝ) (dtn : ℝ)
    (hwp : waypoints.get? t.path_index = some wp)
    (hspeed : 0 < t.speed)
    (hdts : ∀ d ∈ dts, 0 < d) (hdtn : 0 < dtn)
    (hsum : t.speed * (dts.sum + dtn) = (wp - tr.translation.xz).length) :
    ∃ tr', run_moves waypoints (dts ++ [dtn]) t tr
        = some ({ t with path_index := t.path_index + 1 }, tr') ∧
      (wp - tr'.translation.xz).length = t.speed * dtn := by
  induction dts generalizing tr with
  | nil =>
    have hr : (wp - tr.translation.xz).length = t.speed * dtn := by
      rw [← hsum]
      norm_num
    have heq := advance_near waypoints dtn t tr wp hwp (by rw [hr]; exact lt_irrefl _)
    refine ⟨tr, ?_, hr⟩
    simp only [List.nil_append, run_moves, heq]
  | cons dt rest ih =>
    have hdt : 0 < dt := hdts dt (List.mem_cons_self _ _)
    have hrest : ∀ d ∈ rest, 0 < d := fun d hd => hdts d (List.mem_cons_of_mem _ hd)
    have hrestsum : 0 < rest.sum + dtn := by
      have := List.sum_nonneg (fun d hd => le_of_lt (hrest d hd))
      linarith
    have hfar : (wp - tr.translation.xz).length > t.speed * dt := by
      rw [← hsum, List.sum_cons]
      nlinarith [mul_pos hspeed hrestsum]
    obtain ⟨tr1, heq, hdist⟩ := advance_far_dist waypoints dt t tr wp hwp
      (le_of_lt (mul_pos hspeed hdt)) hfar
    have hsum1 : t.speed * (rest.sum + dtn) = (wp - tr1.translation.xz).length := by
      rw [hdist, ← hsum, List.sum_cons]
      ring
    obtain ⟨tr', hrun, hfinal⟩ := ih tr1 hrest hsum1
    refine ⟨tr', ?_, hfinal⟩
    rw [List.cons_append]
    simp only [run_moves, heq]
    exact hrun

/-- C5 amended witness: the concrete two-tick run of the counterexample
scenario through the amended statement. -/
theorem run_moves_cumulative_dt_witness :
    ∃ tr', run_moves targetPathWaypoints [1, 1] ⟨1, 0⟩ ⟨⟨6, 0, 0⟩, ⟨0, 0, 1⟩⟩
        = some (⟨1, 1⟩, tr') ∧
      ((⟨6, 2⟩ : Vec2) - tr'.translation.xz).length = (1 : ℝ) * 1 :=
  run_moves_cumulative_dt targetPathWaypoints ⟨1, 0⟩ ⟨⟨6, 0, 0⟩, ⟨0, 0, 1⟩⟩ ⟨6, 2⟩ [1] 1
    rfl (by norm_num)
    (by intro d hd; rw [List.mem_singleton] at hd; rw [hd]; norm_num)
    (by norm_num)
    (by
      rw [show ((⟨6, 2⟩ : Vec2) - (⟨6, 0, 0⟩ : Vec3).xz) = (⟨0, 2⟩ : Vec2) by
        simp [Vec3.xz]]
      rw [Vec2.length_mk_up 2 (by norm_num)]
      norm_num)

/-- C3 amended witness: a concrete instantiation of the silent no-path
behaviour on a poisoned lock. -/
theorem lock_failure_silent_no_path_witness :
    async_path_find (μ := Unit) LockResult.poisoned (fun _ => Except.ok [⟨1, 2, 3⟩])
      = (none, []) ∧
    run_blocking_pathfinding (μ := Unit) (π := Unit) true LockResult.poisoned
      (fun _ => Except.ok ()) (fun _ _ => Except.ok [⟨1, 2, 3⟩]) = ([], []) :=
  lock_failure_silent_no_path true (fun _ => Except.ok [⟨1, 2, 3⟩])
    (fun _ => Except.ok ()) (fun _ _ => Except.ok [⟨1, 2, 3⟩])
